import Mathlib

/-!
Shallow embedding of the LSD (Less Syntax Data) parser from src/rust/src/lib.rs.

The Rust parser works over a peekable stream of characters; here the stream is
a `List Char` threaded through every reading function.  Functions that loop on
the stream take an explicit fuel parameter (`Nat`); exhausting the fuel yields
the distinguished result `PResult.fuel`, which never occurs for adequate fuel
and concrete inputs.  Machine integers (`u8`, `u16`, `usize`) are modelled as
`Nat` with explicit bounds where the Rust semantics depends on them.
-/

namespace LSDSpec

/-- Error enum `ParseError` from lib.rs.  `ReadFailure` carries no payload here
because the pure stream model never fails to read. -/
inductive ParseError where
  | ReadFailure
  | UnexpectedCharAtFileEnd
  | UnexpectedStringEnd
  | UnexpectedCharEscapeEnd
  | UnexpectedCharInByteEscape
  | UnexpectedCharInUnicodeEscape
  | ExpectedKeyOrEnd
  | ExpectedKeyPartAfterKeySeparator
  | ExpectedLSDAfterKey
  | ExpectedListLSDOrEnd
  | KeyCollisionShouldBeLevelButIsNot
  | KeyCollisionKeyAlreadyExists (key : String)
deriving DecidableEq, Repr

/-- The `LSD` enum from lib.rs: `Value = String`, `List = Vec<LSD>`,
`Level = IndexMap<String, LSD>` (an insertion-ordered map, modelled as an
association list with unique keys). -/
inductive LSD where
  | Value : String → LSD
  | List : List LSD → LSD
  | Level : List (String × LSD) → LSD
deriving Repr

abbrev Level := List (String × LSD)

abbrev Chars := List Char

/-- `IndexMap::get`: first (and only, keys being unique) binding of `k`. -/
def levelGet (l : Level) (k : String) : Option LSD :=
  match l with
  | [] => none
  | (k2, v) :: rest => if k2 = k then some v else levelGet rest k

/-- `IndexMap::insert`: replace in place when the key exists (returning the old
value), otherwise append at the end (returning `none`). -/
def levelInsert (l : Level) (k : String) (v : LSD) : Option LSD × Level :=
  match l with
  | [] => (none, [(k, v)])
  | (k2, v2) :: rest =>
    if k2 = k then (some v2, (k2, v) :: rest)
    else
      match levelInsert rest k v with
      | (old, rest2) => (old, (k2, v2) :: rest2)

/-- Replace the value stored at key `k`, keeping its position (the in-place
update through `IndexMap::entry`). -/
def levelSet (l : Level) (k : String) (v : LSD) : Level :=
  match l with
  | [] => []
  | (k2, v2) :: rest => if k2 = k then (k2, v) :: rest else (k2, v2) :: levelSet rest k v

/-- `merge_level` from `read_level_inner` in lib.rs: merge the level `level`
into `insert_into`, key by key.  A `Value`/`List` under an already-present key
is a duplicate-key collision; a `Level` merges recursively into an existing
`Level` entry (an empty one being created when the key is absent) and collides
when the existing entry is not a `Level`.  The recursion follows the structure
of `level`; `none` reports fuel exhaustion, which never happens for fuel at
least the nesting depth of `level`. -/
def merge_level (fuel : Nat) (insert_into level : Level) :
    Option (Except ParseError Level) :=
  match fuel with
  | 0 => none
  | fuel + 1 =>
    match level with
    | [] => some (Except.ok insert_into)
    | (key, LSD.Value v) :: rest =>
      match levelInsert insert_into key (LSD.Value v) with
      | (some _, _) => some (Except.error (ParseError.KeyCollisionKeyAlreadyExists key))
      | (none, merged) => merge_level fuel merged rest
    | (key, LSD.List l) :: rest =>
      match levelInsert insert_into key (LSD.List l) with
      | (some _, _) => some (Except.error (ParseError.KeyCollisionKeyAlreadyExists key))
      | (none, merged) => merge_level fuel merged rest
    | (key, LSD.Level lvl) :: rest =>
      match levelGet insert_into key with
      | some (LSD.Value _) =>
        some (Except.error ParseError.KeyCollisionShouldBeLevelButIsNot)
      | some (LSD.List _) =>
        some (Except.error ParseError.KeyCollisionShouldBeLevelButIsNot)
      | some (LSD.Level existing) =>
        match merge_level fuel existing lvl with
        | none => none
        | some (Except.error e) => some (Except.error e)
        | some (Except.ok inner2) =>
          merge_level fuel (levelSet insert_into key (LSD.Level inner2)) rest
      | none =>
        match merge_level fuel [] lvl with
        | none => none
        | some (Except.error e) => some (Except.error e)
        | some (Except.ok inner2) =>
          merge_level fuel (insert_into ++ [(key, LSD.Level inner2)]) rest

/-- The key-path wrapping loop of `read_level_inner`: a key path `k1.k2...kn`
with node `v` becomes the single-branch nested level
`[(k1, Level [(k2, ... [(kn, v)] ...)])]`. -/
def expand_key_path : List String → LSD → Level
  | [], _ => []
  | [k], v => [(k, v)]
  | k :: k2 :: rest, v => [(k, LSD.Level (expand_key_path (k2 :: rest) v))]

/-- Result of a reading function: a value plus the remaining stream, a parse
error, or fuel exhaustion (which the Rust original, looping freely, never
reports). -/
inductive PResult (α : Type) where
  | ok : α → List Char → PResult α
  | err : ParseError → PResult α
  | fuel : PResult α
deriving Repr

def PResult.map (f : α → β) : PResult α → PResult β
  | .ok a s => .ok (f a) s
  | .err e => .err e
  | .fuel => .fuel

/-- `read_iws`: consume a maximal run of spaces and tabs, returning the run
and the rest of the stream. -/
def read_iws : List Char → String × List Char
  | [] => ( "", [])
  | c :: rest =>
    if c = ' ' ∨ c = '\t' then
      match read_iws rest with
      | (run, rest2) => (String.mk (c :: run.data), rest2)
    else ( "", c :: rest)

theorem read_iws_snd_length (s : List Char) : (read_iws s).2.length ≤ s.length := by
  induction s with
  | nil => simp [read_iws]
  | cons c rest ih =>
    simp only [read_iws]
    split
    · simpa using Nat.le_succ_of_le ih
    · simp

/-- The main loop of `read_nws`: the arm order (line terminator, then any
character while inside a comment, then space or tab outside a comment — the
interleaved `read_iws` calls of the Rust loop — then `#`, then stop) mirrors
the Rust control flow; `has_nl` records whether a line terminator was
crossed. -/
def read_nws_loop (has_nl in_comment : Bool) : List Char → Bool × List Char
  | [] => (has_nl, [])
  | c :: rest =>
    if c = '\r' ∨ c = '\n' then
      read_nws_loop true false rest
    else if in_comment then
      read_nws_loop has_nl true rest
    else if c = ' ' ∨ c = '\t' then
      read_nws_loop has_nl false rest
    else if c = '#' then
      read_nws_loop has_nl true rest
    else (has_nl, c :: rest)

/-- `read_nws`: skip whitespace, line terminators and `#` comments, reporting
whether a line terminator was crossed. -/
def read_nws (s : List Char) : Bool × List Char :=
  read_nws_loop false false s

/-- Character loop of `read_word`: stop on end of input, whitespace, line
terminators, quotes, `#`, or the optional ignore character. -/
def read_word_loop (ignore : Option Char) (acc : String) : List Char → String × List Char
  | [] => (acc, [])
  | c :: rest =>
    if c = ' ' ∨ c = '\t' ∨ c = '\r' ∨ c = '\n' ∨ c = '\'' ∨ c = '"' ∨ c = '#' then
      (acc, c :: rest)
    else if some c = ignore then (acc, c :: rest)
    else read_word_loop ignore (acc.push c) rest

/-- `read_word`: a maximal non-empty run of word characters, `none` when the
run is empty. -/
def read_word (ignore : Option Char) (s : List Char) : Option String × List Char :=
  match read_word_loop ignore "" s with
  | (r, rest) => (if r.isEmpty then none else some r, rest)

/-- Character loop of `read_key_word`: like `read_word` but also stopping on
the structural delimiters and the key separator. -/
def read_key_word_loop (acc : String) : List Char → String × List Char
  | [] => (acc, [])
  | c :: rest =>
    if c = ' ' ∨ c = '\t' ∨ c = '\r' ∨ c = '\n' ∨ c = '\'' ∨ c = '"' ∨ c = '#'
        ∨ c = '{' ∨ c = '}' ∨ c = '[' ∨ c = ']' ∨ c = '.' then
      (acc, c :: rest)
    else read_key_word_loop (acc.push c) rest

/-- `read_key_word`: a maximal non-empty run of key-word characters. -/
def read_key_word (s : List Char) : Option String × List Char :=
  match read_key_word_loop "" s with
  | (r, rest) => (if r.isEmpty then none else some r, rest)

/-- `u4_from_hex_char` from `read_string`: one hex digit, case-insensitive. -/
def u4_from_hex_char (c : Char) : Option Nat :=
  if 'a' ≤ c ∧ c ≤ 'f' then some (c.toNat - 'a'.toNat + 10)
  else if 'A' ≤ c ∧ c ≤ 'F' then some (c.toNat - 'A'.toNat + 10)
  else if '0' ≤ c ∧ c ≤ '9' then some (c.toNat - '0'.toNat)
  else none

/-- `u8_from_2_hex_chars`: a byte from two hex digits. -/
def u8_from_2_hex_chars (c1 c2 : Char) : Option Nat :=
  match u4_from_hex_char c1, u4_from_hex_char c2 with
  | some h1, some h2 => some (h1 * 16 + h2)
  | _, _ => none

/-- `u16_from_4_hex_chars`: a UTF-16 code unit from four hex digits. -/
def u16_from_4_hex_chars (c1 c2 c3 c4 : Char) : Option Nat :=
  match u8_from_2_hex_chars c1 c2, u8_from_2_hex_chars c3 c4 with
  | some b1, some b2 => some (b1 * 256 + b2)
  | _, _ => none

/-- `u8::leading_ones` for a byte value: the count of consecutive one bits
starting from bit 7. -/
def leadingOnes8 (b : Nat) : Nat :=
  if ¬ b.testBit 7 then 0
  else if ¬ b.testBit 6 then 1
  else if ¬ b.testBit 5 then 2
  else if ¬ b.testBit 4 then 3
  else if ¬ b.testBit 3 then 4
  else if ¬ b.testBit 2 then 5
  else if ¬ b.testBit 1 then 6
  else if ¬ b.testBit 0 then 7
  else 8

/-- A UTF-8 continuation byte. -/
def isUtf8Cont (b : Nat) : Bool := 0x80 ≤ b ∧ b ≤ 0xBF

/-- `String::from_utf8`: strict UTF-8 decoding of a byte sequence (overlong
forms, surrogate code points and values above U+10FFFF are rejected). -/
def utf8_decode : List Nat → Option (List Char)
  | [] => some []
  | b1 :: rest =>
    if b1 < 0x80 then
      Option.map (fun cs => Char.ofNat b1 :: cs) (utf8_decode rest)
    else if 0xC2 ≤ b1 ∧ b1 ≤ 0xDF then
      match rest with
      | b2 :: rest2 =>
        if isUtf8Cont b2 then
          Option.map
            (fun cs => Char.ofNat ((b1 - 0xC0) * 0x40 + (b2 - 0x80)) :: cs)
            (utf8_decode rest2)
        else none
      | _ => none
    else if 0xE0 ≤ b1 ∧ b1 ≤ 0xEF then
      match rest with
      | b2 :: b3 :: rest2 =>
        if (if b1 = 0xE0 then 0xA0 ≤ b2 ∧ b2 ≤ 0xBF
            else if b1 = 0xED then 0x80 ≤ b2 ∧ b2 ≤ 0x9F
            else isUtf8Cont b2 = true) ∧ isUtf8Cont b3 = true then
          Option.map
            (fun cs =>
              Char.ofNat ((b1 - 0xE0) * 0x1000 + (b2 - 0x80) * 0x40 + (b3 - 0x80)) :: cs)
            (utf8_decode rest2)
        else none
      | _ => none
    else if 0xF0 ≤ b1 ∧ b1 ≤ 0xF4 then
      match rest with
      | b2 :: b3 :: b4 :: rest2 =>
        if (if b1 = 0xF0 then 0x90 ≤ b2 ∧ b2 ≤ 0xBF
            else if b1 = 0xF4 then 0x80 ≤ b2 ∧ b2 ≤ 0x8F
            else isUtf8Cont b2 = true) ∧ isUtf8Cont b3 = true ∧ isUtf8Cont b4 = true then
          Option.map
            (fun cs =>
              Char.ofNat
                ((b1 - 0xF0) * 0x40000 + (b2 - 0x80) * 0x1000
                  + (b3 - 0x80) * 0x40 + (b4 - 0x80)) :: cs)
            (utf8_decode rest2)
        else none
      | _ => none
    else none

/-- A UTF-16 surrogate code unit. -/
def isSurrogate (u : Nat) : Bool := 0xD800 ≤ u ∧ u ≤ 0xDFFF

/-- `char::decode_utf16` on a surrogate pair: combine a high and a low
surrogate into one scalar value, failing on any other combination. -/
def decode_utf16_pair (u1 u2 : Nat) : Option Char :=
  if 0xD800 ≤ u1 ∧ u1 ≤ 0xDBFF ∧ 0xDC00 ≤ u2 ∧ u2 ≤ 0xDFFF then
    some (Char.ofNat (0x10000 + (u1 - 0xD800) * 0x400 + (u2 - 0xDC00)))
  else none

/-- The continuation-byte loop of the `\x` escape in `read_string`: read `n`
further `\x`-escaped two-hex-digit bytes, appending them to `bytes`.  A
missing character is an `UnexpectedStringEnd`; a character that breaks the
`\xHH` shape is an `UnexpectedCharInByteEscape`. -/
def read_x_conts : Nat → List Nat → List Char → Except ParseError (List Nat × List Char)
  | 0, bytes, s => Except.ok (bytes, s)
  | n + 1, bytes, s =>
    match s with
    | [] => Except.error ParseError.UnexpectedStringEnd
    | [_] => Except.error ParseError.UnexpectedStringEnd
    | c1 :: c2 :: s2 =>
      if c1 = '\\' ∧ (c2 = 'x' ∨ c2 = 'X') then
        match s2 with
        | [] => Except.error ParseError.UnexpectedStringEnd
        | [_] => Except.error ParseError.UnexpectedStringEnd
        | h1 :: h2 :: s4 =>
          match u8_from_2_hex_chars h1 h2 with
          | none => Except.error ParseError.UnexpectedCharInByteEscape
          | some b => read_x_conts n (bytes ++ [b]) s4
      else Except.error ParseError.UnexpectedCharInByteEscape

/-- Main loop of `read_string`: decode characters and escapes until the
closing quote. -/
def read_string_loop (fuel : Nat) (close : Char) (acc : String) (s : List Char) :
    PResult String :=
  match fuel with
  | 0 => PResult.fuel
  | fuel + 1 =>
    match s with
    | [] => PResult.err ParseError.UnexpectedStringEnd
    | c :: rest =>
      if c = '\\' then
        match rest with
        | [] => PResult.err ParseError.UnexpectedCharEscapeEnd
        | e :: rest2 =>
          if e = '"' then read_string_loop fuel close (acc.push '"') rest2
          else if e = '\\' then read_string_loop fuel close (acc.push '\\') rest2
          else if e = '\'' then read_string_loop fuel close (acc.push '\'') rest2
          else if e = '0' then read_string_loop fuel close (acc.push (Char.ofNat 0)) rest2
          else if e = 'a' ∨ e = 'A' then
            read_string_loop fuel close (acc.push (Char.ofNat 7)) rest2
          else if e = 'b' ∨ e = 'B' then
            read_string_loop fuel close (acc.push (Char.ofNat 8)) rest2
          else if e = 't' ∨ e = 'T' then read_string_loop fuel close (acc.push '\t') rest2
          else if e = 'n' ∨ e = 'N' then read_string_loop fuel close (acc.push '\n') rest2
          else if e = 'v' ∨ e = 'V' then
            read_string_loop fuel close (acc.push (Char.ofNat 11)) rest2
          else if e = 'f' ∨ e = 'F' then
            read_string_loop fuel close (acc.push (Char.ofNat 12)) rest2
          else if e = 'r' ∨ e = 'R' then read_string_loop fuel close (acc.push '\r') rest2
          else if e = 'x' ∨ e = 'X' then
            match rest2 with
            | [] => PResult.err ParseError.UnexpectedStringEnd
            | [_] => PResult.err ParseError.UnexpectedStringEnd
            | h1 :: h2 :: s2 =>
              match u8_from_2_hex_chars h1 h2 with
              | none => PResult.err ParseError.UnexpectedCharInByteEscape
              | some first_byte =>
                match read_x_conts (leadingOnes8 first_byte) [first_byte] s2 with
                | Except.error e2 => PResult.err e2
                | Except.ok (bytes, s3) =>
                  match utf8_decode bytes with
                  | none => PResult.err ParseError.UnexpectedCharInByteEscape
                  | some cs => read_string_loop fuel close (acc ++ String.mk cs) s3
          else if e = 'u' ∨ e = 'U' then
            match rest2 with
            | c1 :: c2 :: c3 :: c4 :: s2 =>
              match u16_from_4_hex_chars c1 c2 c3 c4 with
              | none => PResult.err ParseError.UnexpectedCharInUnicodeEscape
              | some u1 =>
                if ¬ isSurrogate u1 then
                  read_string_loop fuel close (acc.push (Char.ofNat u1)) s2
                else
                  match s2 with
                  | [] => PResult.err ParseError.UnexpectedStringEnd
                  | [_] => PResult.err ParseError.UnexpectedStringEnd
                  | d1 :: d2 :: s3 =>
                    if d1 = '\\' ∧ (d2 = 'u' ∨ d2 = 'U') then
                      match s3 with
                      | e1 :: e2 :: e3 :: e4 :: s4 =>
                        match u16_from_4_hex_chars e1 e2 e3 e4 with
                        | none => PResult.err ParseError.UnexpectedCharInUnicodeEscape
                        | some u2 =>
                          match decode_utf16_pair u1 u2 with
                          | none => PResult.err ParseError.UnexpectedCharInUnicodeEscape
                          | some ch => read_string_loop fuel close (acc.push ch) s4
                      | _ => PResult.err ParseError.UnexpectedStringEnd
                    else PResult.err ParseError.UnexpectedCharInUnicodeEscape
            | _ => PResult.err ParseError.UnexpectedStringEnd
          else PResult.err ParseError.UnexpectedCharEscapeEnd
      else if c = close then PResult.ok acc rest
      else read_string_loop fuel close (acc.push c) rest

/-- `read_string`: `none` unless the stream starts with `"` or `'`; the same
character closes the string. -/
def read_string (fuel : Nat) (s : List Char) : PResult (Option String) :=
  match s with
  | [] => PResult.ok none []
  | c :: rest =>
    if c = '"' ∨ c = '\'' then PResult.map some (read_string_loop fuel c "" rest)
    else PResult.ok none (c :: rest)

/-- Loop of `read_key_part`: alternate key words and quoted strings, gluing
them together. -/
def read_key_part_loop (fuel : Nat) (acc : String) (s : List Char) : PResult String :=
  match fuel with
  | 0 => PResult.fuel
  | fuel + 1 =>
    match read_key_word s with
    | (some w, s1) => read_key_part_loop fuel (acc ++ w) s1
    | (none, s1) =>
      match read_string fuel s1 with
      | PResult.ok (some str) s2 => read_key_part_loop fuel (acc ++ str) s2
      | PResult.ok none s2 => PResult.ok acc s2
      | PResult.err e => PResult.err e
      | PResult.fuel => PResult.fuel

/-- `read_key_part`: `none` when no key word or string was found. -/
def read_key_part (fuel : Nat) (s : List Char) : PResult (Option String) :=
  match read_key_part_loop fuel "" s with
  | PResult.ok r s1 => PResult.ok (if r.isEmpty then none else some r) s1
  | PResult.err e => PResult.err e
  | PResult.fuel => PResult.fuel

/-- Loop of `read_key_path`: accept `.`-separated further key parts, each
mandatory after its separator. -/
def read_key_path_loop (fuel : Nat) (acc : List String) (s : List Char) :
    PResult (List String) :=
  match fuel with
  | 0 => PResult.fuel
  | fuel + 1 =>
    match s with
    | '.' :: rest =>
      match read_key_part fuel rest with
      | PResult.ok (some part) s2 => read_key_path_loop fuel (acc ++ [part]) s2
      | PResult.ok none _ => PResult.err ParseError.ExpectedKeyPartAfterKeySeparator
      | PResult.err e => PResult.err e
      | PResult.fuel => PResult.fuel
    | _ => PResult.ok acc s

/-- `read_key_path`: a non-empty `.`-separated sequence of key parts, `none`
when no first part is present. -/
def read_key_path (fuel : Nat) (s : List Char) : PResult (Option (List String)) :=
  match read_key_part fuel s with
  | PResult.ok none s1 => PResult.ok none s1
  | PResult.ok (some p) s1 => PResult.map some (read_key_path_loop fuel [p] s1)
  | PResult.err e => PResult.err e
  | PResult.fuel => PResult.fuel

/-- `read_value_part`: a word, or else a quoted string. -/
def read_value_part (fuel : Nat) (ignore : Option Char) (s : List Char) :
    PResult (Option String) :=
  match read_word ignore s with
  | (some w, s1) => PResult.ok (some w) s1
  | (none, s1) => read_string fuel s1

/-- Loop of `read_value`: keep appending same-line whitespace runs and further
fragments while fragments are found. -/
def read_value_loop (fuel : Nat) (ignore : Option Char) (acc : String) (s : List Char) :
    PResult String :=
  match fuel with
  | 0 => PResult.fuel
  | fuel + 1 =>
    match read_iws s with
    | (iws, s1) =>
      match read_value_part fuel ignore s1 with
      | PResult.ok (some part) s2 => read_value_loop fuel ignore (acc ++ iws ++ part) s2
      | PResult.ok none s2 => PResult.ok acc s2
      | PResult.err e => PResult.err e
      | PResult.fuel => PResult.fuel

/-- `read_value`: a first fragment followed by the gluing loop. -/
def read_value (fuel : Nat) (ignore : Option Char) (s : List Char) :
    PResult (Option String) :=
  match read_value_part fuel ignore s with
  | PResult.ok none s1 => PResult.ok none s1
  | PResult.ok (some first) s1 => PResult.map some (read_value_loop fuel ignore first s1)
  | PResult.err e => PResult.err e
  | PResult.fuel => PResult.fuel

/-- Loop of `read_list_value`: like `read_value_loop` but with `read_key_part`
as the fragment reader. -/
def read_list_value_loop (fuel : Nat) (acc : String) (s : List Char) : PResult String :=
  match fuel with
  | 0 => PResult.fuel
  | fuel + 1 =>
    match read_iws s with
    | (iws, s1) =>
      match read_key_part fuel s1 with
      | PResult.ok (some part) s2 => read_list_value_loop fuel (acc ++ iws ++ part) s2
      | PResult.ok none s2 => PResult.ok acc s2
      | PResult.err e => PResult.err e
      | PResult.fuel => PResult.fuel

/-- `read_list_value`: a list scalar, whose fragments exclude the structural
delimiters and the key separator. -/
def read_list_value (fuel : Nat) (s : List Char) : PResult (Option String) :=
  match read_key_part fuel s with
  | PResult.ok none s1 => PResult.ok none s1
  | PResult.ok (some first) s1 => PResult.map some (read_list_value_loop fuel first s1)
  | PResult.err e => PResult.err e
  | PResult.fuel => PResult.fuel

mutual

/-- `read_lsd`: a list, or else a braced level, or else a value. -/
def read_lsd (fuel : Nat) (ignore : Option Char) (s : List Char) : PResult (Option LSD) :=
  match fuel with
  | 0 => PResult.fuel
  | fuel + 1 =>
    match read_list fuel s with
    | PResult.ok (some l) s1 => PResult.ok (some (LSD.List l)) s1
    | PResult.ok none s1 =>
      match read_level fuel s1 with
      | PResult.ok (some lvl) s2 => PResult.ok (some (LSD.Level lvl)) s2
      | PResult.ok none s2 =>
        match read_value fuel ignore s2 with
        | PResult.ok (some v) s3 => PResult.ok (some (LSD.Value v)) s3
        | PResult.ok none s3 => PResult.ok none s3
        | PResult.err e => PResult.err e
        | PResult.fuel => PResult.fuel
      | PResult.err e => PResult.err e
      | PResult.fuel => PResult.fuel
    | PResult.err e => PResult.err e
    | PResult.fuel => PResult.fuel

/-- `read_level`: `none` unless the stream starts with `{`; then skip
whitespace and read the level body up to the closing `}`. -/
def read_level (fuel : Nat) (s : List Char) : PResult (Option Level) :=
  match fuel with
  | 0 => PResult.fuel
  | fuel + 1 =>
    match s with
    | '{' :: rest =>
      match read_level_inner fuel true [] (read_nws rest).2 with
      | PResult.ok lvl s2 => PResult.ok (some lvl) s2
      | PResult.err e => PResult.err e
      | PResult.fuel => PResult.fuel
    | _ => PResult.ok none s

/-- `read_level_inner`: the level-body loop, accumulating merged key/value
pairs in `acc` (the Rust `results`); `close` tells whether the body ends at a
`}` or at the end of input. -/
def read_level_inner (fuel : Nat) (close : Bool) (acc : Level) (s : List Char) :
    PResult Level :=
  match fuel with
  | 0 => PResult.fuel
  | fuel + 1 =>
    if close ∧ s.head? = some '}' then PResult.ok acc s.tail
    else
      match read_key_path fuel s with
      | PResult.ok none s1 =>
        if close then PResult.err ParseError.ExpectedKeyOrEnd else PResult.ok acc s1
      | PResult.ok (some key) s1 =>
        match read_lsd fuel (some '}') (read_nws s1).2 with
        | PResult.ok none _ => PResult.err ParseError.ExpectedLSDAfterKey
        | PResult.ok (some lsd) s3 =>
          match merge_level fuel acc (expand_key_path key lsd) with
          | none => PResult.fuel
          | some (Except.error e) => PResult.err e
          | some (Except.ok acc2) => read_level_inner fuel close acc2 (read_nws s3).2
        | PResult.err e => PResult.err e
        | PResult.fuel => PResult.fuel
      | PResult.err e => PResult.err e
      | PResult.fuel => PResult.fuel

/-- `read_list_lsd`: a list item — list, braced level, or list scalar. -/
def read_list_lsd (fuel : Nat) (s : List Char) : PResult (Option LSD) :=
  match fuel with
  | 0 => PResult.fuel
  | fuel + 1 =>
    match read_list fuel s with
    | PResult.ok (some l) s1 => PResult.ok (some (LSD.List l)) s1
    | PResult.ok none s1 =>
      match read_level fuel s1 with
      | PResult.ok (some lvl) s2 => PResult.ok (some (LSD.Level lvl)) s2
      | PResult.ok none s2 =>
        match read_list_value fuel s2 with
        | PResult.ok (some v) s3 => PResult.ok (some (LSD.Value v)) s3
        | PResult.ok none s3 => PResult.ok none s3
        | PResult.err e => PResult.err e
        | PResult.fuel => PResult.fuel
      | PResult.err e => PResult.err e
      | PResult.fuel => PResult.fuel
    | PResult.err e => PResult.err e
    | PResult.fuel => PResult.fuel

/-- `read_list`: `none` unless the stream starts with `[`; then skip
whitespace and read items up to the closing `]`. -/
def read_list (fuel : Nat) (s : List Char) : PResult (Option (List LSD)) :=
  match fuel with
  | 0 => PResult.fuel
  | fuel + 1 =>
    match s with
    | '[' :: rest => PResult.map some (read_list_loop fuel [] (read_nws rest).2)
    | _ => PResult.ok none s

/-- The item loop of `read_list`. -/
def read_list_loop (fuel : Nat) (acc : List LSD) (s : List Char) : PResult (List LSD) :=
  match fuel with
  | 0 => PResult.fuel
  | fuel + 1 =>
    match s with
    | ']' :: rest => PResult.ok acc rest
    | _ =>
      match read_list_lsd fuel s with
      | PResult.ok none _ => PResult.err ParseError.ExpectedListLSDOrEnd
      | PResult.ok (some item) s1 => read_list_loop fuel (acc ++ [item]) (read_nws s1).2
      | PResult.err e => PResult.err e
      | PResult.fuel => PResult.fuel

end

/-- `LSD::parse`: skip leading whitespace, try a braced level, then a list
(each rejecting trailing content), and otherwise read the input as a bare
level body. -/
def LSD.parse (fuel : Nat) (s : Chars) : PResult LSD :=
  match read_level fuel (read_nws s).2 with
  | PResult.ok (some lvl) s2 =>
    match (read_nws s2).2 with
    | [] => PResult.ok (LSD.Level lvl) []
    | _ => PResult.err ParseError.UnexpectedCharAtFileEnd
  | PResult.ok none s2 =>
    match read_list fuel s2 with
    | PResult.ok (some l) s3 =>
      match (read_nws s3).2 with
      | [] => PResult.ok (LSD.List l) []
      | _ => PResult.err ParseError.UnexpectedCharAtFileEnd
    | PResult.ok none s3 =>
      match read_level_inner fuel false [] s3 with
      | PResult.ok lvl s4 => PResult.ok (LSD.Level lvl) s4
      | PResult.err e => PResult.err e
      | PResult.fuel => PResult.fuel
    | PResult.err e => PResult.err e
    | PResult.fuel => PResult.fuel
  | PResult.err e => PResult.err e
  | PResult.fuel => PResult.fuel

/-- `KeyPathPart` from lib.rs: a string key or a numeric index. -/
inductive KeyPathPart where
  | Key : String → KeyPathPart
  | Index : Nat → KeyPathPart
deriving DecidableEq, Repr

/-- `pub type KeyPath = [KeyPathPart]` from lib.rs. -/
abbrev KeyPath := List KeyPathPart

/-- `Display for KeyPathPart`: a key displays as itself, an index as its
decimal rendering. -/
def KeyPathPart.display : KeyPathPart → String
  | KeyPathPart.Key s => s
  | KeyPathPart.Index i => toString i

/-- `usize::from_str` on a 64-bit platform: an optional leading `+`, then one
or more decimal digits, rejecting values above `2^64 - 1`. -/
def parse_usize (s : String) : Option Nat :=
  match s.data with
  | [] => none
  | l =>
    match (if l.head? = some '+' then l.tail else l) with
    | [] => none
    | ds =>
      if ds.all Char.isDigit then
        match ds.foldl (fun a c => a * 10 + (c.toNat - Char.toNat '0')) 0 with
        | n => if n < 2 ^ 64 then some n else none
      else none

/-- `From<&str> for KeyPathPart`: parse as `usize` when possible, otherwise
keep the string as a key. -/
def KeyPathPart.fromStr (s : String) : KeyPathPart :=
  match parse_usize s with
  | some n => KeyPathPart.Index n
  | none => KeyPathPart.Key s

/-- `LSDGetExt::inner for LSD`: an empty path yields the node itself; a
non-empty path dispatches on the variant — levels look the head segment up as
its display string, lists index by `Index` segments, values have no inner. -/
def LSD.inner (lsd : LSD) (parts : KeyPath) : Option LSD :=
  match parts with
  | [] => some lsd
  | key :: rest =>
    match lsd with
    | LSD.Value _ => none
    | LSD.Level level =>
      match levelGet level (KeyPathPart.display key) with
      | some found => LSD.inner found rest
      | none => none
    | LSD.List list =>
      match key with
      | KeyPathPart.Index i =>
        match list.get? i with
        | some found => LSD.inner found rest
        | none => none
      | KeyPathPart.Key _ => none

/-- `LSDGetExt::inner for Level`: split the first segment, look it up by its
display string, and continue with `LSD.inner`. -/
def Level.inner (level : Level) (parts : KeyPath) : Option LSD :=
  match parts with
  | [] => none
  | key :: rest =>
    match levelGet level (KeyPathPart.display key) with
    | some found => LSD.inner found rest
    | none => none

/-- A character that is not a line terminator (comment bodies run while this
holds). -/
def notNL (d : Char) : Bool := ¬ (d = '\r' ∨ d = '\n')

/-- Documents made of nothing but spaces, tabs, line terminators and `#`
comments (a comment running to the next line terminator or the end of input). -/
def wsCommentOnly : List Char → Bool
  | [] => true
  | c :: rest =>
    if c = ' ' ∨ c = '\t' then wsCommentOnly rest
    else if c = '\r' ∨ c = '\n' then wsCommentOnly rest
    else if c = '#' then wsCommentOnly (rest.dropWhile notNL)
    else false
termination_by s => s.length
decreasing_by
  all_goals simp only [List.length_cons]
  · exact Nat.lt_succ_self _
  · exact Nat.lt_succ_self _
  · exact Nat.lt_succ_of_le (List.dropWhile_suffix _).length_le

/-! Helper lemmas. -/

theorem levelInsert_fst (l : Level) (k : String) (v : LSD) :
    (levelInsert l k v).1 = levelGet l k := by
  induction l with
  | nil => simp [levelInsert, levelGet]
  | cons p rest ih =>
    obtain ⟨k2, v2⟩ := p
    simp only [levelInsert, levelGet]
    split
    · simp
    · rcases hr : levelInsert rest k v with ⟨old, rest2⟩
      rw [hr] at ih
      simpa using ih

theorem read_nws_loop_wsCommentOnly : ∀ s : List Char,
    (∀ has, wsCommentOnly s = true → (read_nws_loop has false s).2 = []) ∧
    (∀ has, wsCommentOnly (s.dropWhile notNL) = true → (read_nws_loop has true s).2 = []) := by
  intro s
  induction s with
  | nil => exact ⟨fun has _ => by simp [read_nws_loop], fun has _ => by simp [read_nws_loop]⟩
  | cons c rest ih =>
    constructor
    · intro has hws
      simp only [wsCommentOnly] at hws
      by_cases h2 : c = '\r' ∨ c = '\n'
      · have h1 : ¬ (c = ' ' ∨ c = '\t') := by
          rcases h2 with h | h <;> subst h <;> decide
        rw [if_neg h1, if_pos h2] at hws
        simp only [read_nws_loop, if_pos h2]
        exact ih.1 true hws
      · by_cases h1 : c = ' ' ∨ c = '\t'
        · rw [if_pos h1] at hws
          simp only [read_nws_loop, if_neg h2, Bool.false_eq_true, if_false, if_pos h1]
          exact ih.1 has hws
        · rw [if_neg h1, if_neg h2] at hws
          by_cases h3 : c = '#'
          · rw [if_pos h3] at hws
            simp only [read_nws_loop, if_neg h2, Bool.false_eq_true, if_false, if_neg h1,
              if_pos h3]
            exact ih.2 has hws
          · rw [if_neg h3] at hws
            exact absurd hws (by simp)
    · intro has hws
      by_cases h2 : c = '\r' ∨ c = '\n'
      · have hnl : notNL c = false := by rcases h2 with h | h <;> subst h <;> decide
        rw [List.dropWhile_cons, hnl] at hws
        simp only [Bool.false_eq_true, if_false] at hws
        have h1 : ¬ (c = ' ' ∨ c = '\t') := by
          rcases h2 with h | h <;> subst h <;> decide
        simp only [wsCommentOnly, if_neg h1, if_pos h2] at hws
        simp only [read_nws_loop, if_pos h2]
        exact ih.1 true hws
      · have hnl : notNL c = true := by simp [notNL, h2]
        rw [List.dropWhile_cons, hnl] at hws
        simp only [if_true] at hws
        simp only [read_nws_loop, if_neg h2]
        exact ih.2 has hws

theorem read_nws_of_wsCommentOnly (s : List Char) (h : wsCommentOnly s = true) :
    (read_nws s).2 = [] :=
  (read_nws_loop_wsCommentOnly s).1 false h

theorem empty_string_isEmpty : String.isEmpty "" = true := rfl

/-! Claim theorems. -/

/-- Claim C1, counterexample to the claim as stated: a file containing only
the single scalar token `abc`, with no enclosing braces, does not parse to a
`Level` — it is treated as a bare level body whose key `abc` has no value, so
the parse fails with `ExpectedLSDAfterKey`. -/
theorem parse_single_scalar_fails :
    LSD.parse 100 (String.data "abc") = PResult.err ParseError.ExpectedLSDAfterKey := by
  rfl

/-- Claim C1, as amended: for every fuel and input on which `LSD.parse`
succeeds, the returned root node is a `Level` or a `List`, never a bare
`Value`; a file containing only a single scalar token does not produce a
root at all but fails with `ExpectedLSDAfterKey`. -/
theorem parse_root_never_bare_value :
    ∀ fuel s lsd rest, LSD.parse fuel s = PResult.ok lsd rest →
      (∃ lvl, lsd = LSD.Level lvl) ∨ (∃ l, lsd = LSD.List l) := by
  intro fuel s lsd rest h
  unfold LSD.parse at h
  split at h
  · split at h
    · injection h with h1 h2
      exact Or.inl ⟨_, h1.symm⟩
    · simp at h
  · split at h
    · split at h
      · injection h with h1 h2
        exact Or.inr ⟨_, h1.symm⟩
      · simp at h
    · split at h
      · injection h with h1 h2
        exact Or.inl ⟨_, h1.symm⟩
      · simp at h
      · simp at h
    · simp at h
    · simp at h
  · simp at h
  · simp at h

/-- Claim C1, witness for the amended theorem at a concrete input. -/
theorem parse_root_never_bare_value_witness :
    (∃ lvl, LSD.Level [("a", LSD.Value "10")] = LSD.Level lvl) ∨
      (∃ l, LSD.Level [("a", LSD.Value "10")] = LSD.List l) :=
  parse_root_never_bare_value 100 (String.data "a 10")
    (LSD.Level [("a", LSD.Value "10")]) [] (by rfl)

/-- Claim C2: the level body `a.b 10` followed by `a.c 20` parses to a single
key `a` mapped to a level with exactly the children `b ↦ Value "10"` and
`c ↦ Value "20"`, the dotted paths being expanded to single-branch nested
levels and merged. -/
theorem parse_dotted_key_paths_merge :
    LSD.parse 100 (String.data "a.b 10\na.c 20") =
      PResult.ok
        (LSD.Level [("a", LSD.Level [("b", LSD.Value "10"), ("c", LSD.Value "20")])])
        [] := by
  rfl

/-- Claim C3: `a 10` then `a.b 20` fails with
`KeyCollisionShouldBeLevelButIsNot`, and `a 10` then `a 20` fails with
`KeyCollisionKeyAlreadyExists "a"`; no tree is returned in either case. -/
theorem parse_collision_errors :
    LSD.parse 100 (String.data "a 10\na.b 20") =
        PResult.err ParseError.KeyCollisionShouldBeLevelButIsNot ∧
      LSD.parse 100 (String.data "a 10\na 20") =
        PResult.err (ParseError.KeyCollisionKeyAlreadyExists "a") := by
  exact ⟨rfl, rfl⟩

/-- Claim C5: each of the four truncated-escape documents — a quoted string
ending right after `\x`, after `\xff`, after `\u`, and after `\udfff` — fails
with `UnexpectedStringEnd`. -/
theorem parse_truncated_escape_errors :
    LSD.parse 100 (String.data "test \"\\x") = PResult.err ParseError.UnexpectedStringEnd ∧
      LSD.parse 100 (String.data "test \"\\xff") =
        PResult.err ParseError.UnexpectedStringEnd ∧
      LSD.parse 100 (String.data "test \"\\u") =
        PResult.err ParseError.UnexpectedStringEnd ∧
      LSD.parse 100 (String.data "test \"\\udfff") =
        PResult.err ParseError.UnexpectedStringEnd := by
  exact ⟨rfl, rfl, rfl, rfl⟩

/-- Claim C6: adjacent word and quoted-string fragments on one line are glued
with the inter-fragment whitespace runs preserved: the document
`c a  "test string\nand spaces"  b` yields key `c` mapped to the value
`a  test string\nand spaces  b` with the two-space runs and the decoded
newline intact. -/
theorem parse_fragment_concat :
    LSD.parse 100 (String.data "c a  \"test string\\nand spaces\"  b") =
      PResult.ok (LSD.Level [("c", LSD.Value "a  test string\nand spaces  b")]) [] := by
  rfl

/-- Claim C4: after a successful top-level braced-level or list parse, any
remaining non-whitespace, non-comment content makes the whole parse fail with
`UnexpectedCharAtFileEnd`; in particular `[] test` and `{} test` both fail
with that error. -/
theorem parse_trailing_content_rejected :
    (∀ fuel s lvl s2 b rest,
        read_level fuel (read_nws s).2 = PResult.ok (some lvl) s2 →
        read_nws s2 = (b, rest) → rest ≠ [] →
        LSD.parse fuel s = PResult.err ParseError.UnexpectedCharAtFileEnd) ∧
    (∀ fuel s s2 l s3 b rest,
        read_level fuel (read_nws s).2 = PResult.ok none s2 →
        read_list fuel s2 = PResult.ok (some l) s3 →
        read_nws s3 = (b, rest) → rest ≠ [] →
        LSD.parse fuel s = PResult.err ParseError.UnexpectedCharAtFileEnd) ∧
    LSD.parse 100 (String.data "[] test") = PResult.err ParseError.UnexpectedCharAtFileEnd ∧
    LSD.parse 100 (String.data "{} test") =
      PResult.err ParseError.UnexpectedCharAtFileEnd := by
  refine ⟨?_, ?_, rfl, rfl⟩
  · intro fuel s lvl s2 b rest h1 h2 hne
    cases rest with
    | nil => exact absurd rfl hne
    | cons c r => simp only [LSD.parse, h1, h2]
  · intro fuel s s2 l s3 b rest h1 h2 h3 hne
    cases rest with
    | nil => exact absurd rfl hne
    | cons c r => simp only [LSD.parse, h1, h2, h3]

/-- Claim C4, witness for the two general conjuncts at a concrete input. -/
theorem parse_trailing_content_rejected_witness :
    LSD.parse 10 (String.data "{} a") = PResult.err ParseError.UnexpectedCharAtFileEnd ∧
      LSD.parse 10 (String.data "[] a") =
        PResult.err ParseError.UnexpectedCharAtFileEnd :=
  ⟨parse_trailing_content_rejected.1 10 (String.data "{} a") [] (String.data " a")
      false (String.data "a") (by rfl) (by rfl) (by simp),
    parse_trailing_content_rejected.2.1 10 (String.data "[] a") (String.data "[] a")
      [] (String.data " a") false (String.data "a") (by rfl) (by rfl) (by rfl) (by simp)⟩

/-- Claim C7: the empty input and every input consisting only of spaces, tabs,
line terminators and `#` comments parse, for any fuel of at least 2, to the
empty `Level`. -/
theorem parse_ws_comment_only_empty_level :
    ∀ fuel s, 2 ≤ fuel → wsCommentOnly s = true →
      LSD.parse fuel s = PResult.ok (LSD.Level []) [] := by
  intro fuel s hfuel hws
  obtain ⟨g, rfl⟩ : ∃ g, fuel = g + 1 + 1 := ⟨fuel - 2, by omega⟩
  have hnil := read_nws_of_wsCommentOnly s hws
  simp only [LSD.parse, hnil]
  simp [read_level, read_list, read_level_inner, read_key_path, read_key_part,
    read_key_part_loop, read_key_word, read_key_word_loop, read_string,
    empty_string_isEmpty]

/-- Claim C7, witness: a document of blanks and comments parses to the empty
level, and so does the empty document. -/
theorem parse_ws_comment_only_empty_level_witness :
    LSD.parse 2 (String.data " \t# note\n ") = PResult.ok (LSD.Level []) [] ∧
      LSD.parse 2 (String.data "") = PResult.ok (LSD.Level []) [] :=
  ⟨parse_ws_comment_only_empty_level 2 (String.data " \t# note\n ") (by omega)
      (by simp [wsCommentOnly, notNL, List.dropWhile]),
    parse_ws_comment_only_empty_level 2 (String.data "") (by omega)
      (by simp [wsCommentOnly])⟩

/-- Claim C8: a `\x` escape decodes exactly two hex digits into a first byte,
then requires exactly `n` further `\x`-escaped two-hex-digit bytes — each
consuming exactly four characters — where `n` is the count of leading one
bits of the first byte, with no cap and no check that the byte is a valid
UTF-8 lead byte (`leadingOnes8 255 = 8`, so `\xff` demands 8 continuation
escapes); finally the whole byte sequence must decode as UTF-8, otherwise the
parse fails with `UnexpectedCharInByteEscape` (while a plain ASCII byte such
as `\x41` succeeds). -/
theorem byte_escape_continuations :
    (∀ n bytes s bytes2 s2,
        read_x_conts n bytes s = Except.ok (bytes2, s2) →
        bytes2.length = bytes.length + n ∧ ∃ pre, s = pre ++ s2 ∧ pre.length = 4 * n) ∧
    leadingOnes8 255 = 8 ∧
    LSD.parse 100
        (String.data "a \"\\xff\\x80\\x80\\x80\\x80\\x80\\x80\\x80\\x80\"") =
      PResult.err ParseError.UnexpectedCharInByteEscape ∧
    LSD.parse 100 (String.data "a \"\\x41\"") =
      PResult.ok (LSD.Level [("a", LSD.Value "A")]) [] := by
  refine ⟨?_, rfl, rfl, rfl⟩
  intro n
  induction n with
  | zero =>
    intro bytes s bytes2 s2 h
    simp only [read_x_conts, Except.ok.injEq, Prod.mk.injEq] at h
    obtain ⟨rfl, rfl⟩ := h
    exact ⟨by omega, [], by simp⟩
  | succ n ih =>
    intro bytes s bytes2 s2 h
    rcases s with _ | ⟨c1, _ | ⟨c2, s3⟩⟩
    · simp [read_x_conts] at h
    · simp [read_x_conts] at h
    · simp only [read_x_conts] at h
      split at h
      · rcases s3 with _ | ⟨d1, _ | ⟨d2, s4⟩⟩
        · simp at h
        · simp at h
        · rcases hb : u8_from_2_hex_chars d1 d2 with _ | b
          · simp only [hb] at h
            simp at h
          · simp only [hb] at h
            obtain ⟨hlen, pre, hpre, hplen⟩ := ih _ _ _ _ h
            refine ⟨?_, c1 :: c2 :: d1 :: d2 :: pre, ?_, ?_⟩
            · simp only [List.length_append, List.length_cons, List.length_nil] at hlen
              omega
            · simp [hpre]
            · simp only [List.length_cons, hplen]
              omega
      · simp at h

/-- Claim C8, witness for the continuation-count conjunct: one continuation
escape consumes exactly four characters and contributes exactly one byte. -/
theorem byte_escape_continuations_witness :
    List.length [195, 128] = List.length [195] + 1 ∧
      ∃ pre, String.data "\\x80rest" = pre ++ String.data "rest" ∧
        pre.length = 4 * 1 :=
  byte_escape_continuations.1 1 [195] (String.data "\\x80rest") [195, 128]
    (String.data "rest") (by rfl)

/-- Claim C9: merging an incoming `Value` or `List` under a key already
present in the target level fails with `KeyCollisionKeyAlreadyExists`
carrying that key, whatever the existing entry's variant; in particular
`a.b 1` followed by `a 2` fails with that error naming `a`. -/
theorem merge_existing_key_collides :
    (∀ fuel (lvl : Level) key v rest, (levelGet lvl key).isSome = true →
        merge_level (fuel + 1) lvl ((key, LSD.Value v) :: rest) =
          some (Except.error (ParseError.KeyCollisionKeyAlreadyExists key))) ∧
    (∀ fuel (lvl : Level) key l rest, (levelGet lvl key).isSome = true →
        merge_level (fuel + 1) lvl ((key, LSD.List l) :: rest) =
          some (Except.error (ParseError.KeyCollisionKeyAlreadyExists key))) ∧
    LSD.parse 100 (String.data "a.b 1\na 2") =
      PResult.err (ParseError.KeyCollisionKeyAlreadyExists "a") := by
  refine ⟨?_, ?_, rfl⟩
  · intro fuel lvl key v rest h
    have hins := levelInsert_fst lvl key (LSD.Value v)
    rcases hlv : levelInsert lvl key (LSD.Value v) with ⟨old, m⟩
    rw [hlv] at hins
    cases old with
    | some o => simp only [merge_level, hlv]
    | none =>
      rw [← hins] at h
      simp at h
  · intro fuel lvl key l rest h
    have hins := levelInsert_fst lvl key (LSD.List l)
    rcases hlv : levelInsert lvl key (LSD.List l) with ⟨old, m⟩
    rw [hlv] at hins
    cases old with
    | some o => simp only [merge_level, hlv]
    | none =>
      rw [← hins] at h
      simp at h

/-- Claim C9, witness: the collision fires even when the existing entry under
the key is itself a `Level`, for an incoming `Value` and an incoming
`List`. -/
theorem merge_existing_key_collides_witness :
    merge_level 1 [("k", LSD.Level [])] [("k", LSD.Value "x")] =
        some (Except.error (ParseError.KeyCollisionKeyAlreadyExists "k")) ∧
      merge_level 1 [("k", LSD.Level [])] [("k", LSD.List [])] =
        some (Except.error (ParseError.KeyCollisionKeyAlreadyExists "k")) :=
  ⟨merge_existing_key_collides.1 0 [("k", LSD.Level [])] "k" "x" [] (by decide),
    merge_existing_key_collides.2.1 0 [("k", LSD.Level [])] "k" [] [] (by decide)⟩

/-- Claim C10, counterexample to the claim as stated: the digit string `007`
coerces through `KeyPathPart.fromStr` to `Index 7`, which a level looks up as
the string `7`, so the lookup misses an entry stored under the key `007`. -/
theorem level_lookup_leading_zero_digits_missed :
    KeyPathPart.fromStr "007" = KeyPathPart.Index 7 ∧
      Level.inner [("007", LSD.Value "x")] [KeyPathPart.fromStr "007"] = none :=
  ⟨rfl, rfl⟩

/-- Claim C10, as amended: for every level and non-empty accessor path whose
first segment is `Index i`, the lookup key is the decimal rendering of `i`;
a digit-string segment coerces to an `Index` and therefore finds a level key
equal to the canonical decimal rendering of its value (as `10` does), while a
digit string with leading zeros is looked up under its canonical rendering
and misses its original spelling. -/
theorem level_lookup_index_decimal :
    (∀ (lvl : Level) (i : Nat) (rest : KeyPath),
        Level.inner lvl (KeyPathPart.Index i :: rest) =
          Option.bind (levelGet lvl (toString i)) (fun found => LSD.inner found rest)) ∧
    KeyPathPart.fromStr "10" = KeyPathPart.Index 10 ∧
      Level.inner [("10", LSD.Value "x")] [KeyPathPart.fromStr "10"] =
        some (LSD.Value "x") := by
  refine ⟨?_, rfl, rfl⟩
  intro lvl i rest
  simp only [Level.inner, KeyPathPart.display]
  cases hg : levelGet lvl (toString i) with
  | none => simp
  | some found => simp

end LSDSpec
